import Mathlib

/-!
# Verification of the RETSpy_Radar harvesting core

Shallow embedding of the harvesting orchestration loop of the
RETSpy_Radar repository and proofs about it:

* `src/retspy_radar/base/utils/timing.py` — wait-time computation and
  clamping (`timing._calculate_wait_time`, `timing.wait_for_n_seconds`,
  `timing.wait_until`);
* `src/base/process/timer.py` — the `ProcessTimer` wall-clock gate
  (`start`, `stop`, `rewind`, `elapsed_time`, `lapse`);
* `src/retspy_radar/shared/robot_basic.py` — the `RobotBasic.run`
  scan-cycle loop with its pending/retry set bookkeeping;
* `src/sinarame/robot_smn.py` — the SMN robot's `_get_images` /
  `_save_image` download-and-persist step.

Time is modelled as `Int` (Python `datetime` arithmetic is exact at
microsecond resolution, so integer microseconds are a faithful model;
no float subtleties affect the sign comparisons modelled here, and a
`timedelta.total_seconds()` value is always finite).  Python's
`set[str]` becomes `Finset String`.  A Python function that may raise
becomes a Lean function into `Except`; a raised exception that a caller
catches is modelled by the corresponding constructor.
-/

/-! ## timing.py -/

/-- `timing._calculate_wait_time`: the signed difference
`until_datetime - current_datetime`, clamped to be non-negative
(`if wait_time < 0: wait_time = 0`). -/
def calculate_wait_time (until_t now : Int) : Int :=
  let wait_time := until_t - now
  if wait_time < 0 then 0 else wait_time

/-- `timing.wait_for_n_seconds`: raises `InvalidTimeLapseError` when the
requested duration is negative (the `isfinite` guard never fires for a
duration coming from a `timedelta`, which is always finite); otherwise
sleeps and returns.  The returned value records the duration slept. -/
def wait_for_n_seconds (n_seconds : Int) : Except String Int :=
  if n_seconds < 0 then .error "InvalidTimeLapseError" else .ok n_seconds

/-- `timing.wait_until`: sleep for `_calculate_wait_time` seconds. -/
def wait_until (until_t now : Int) : Except String Int :=
  wait_for_n_seconds (calculate_wait_time until_t now)

/-! ## timer.py — `ProcessTimer` -/

/-- The fields of a `ProcessTimer` (`_end_time`, `_next_time`,
`_scan_period`, `_start_time`); `__init__` sets
`next_time := start_time`. -/
structure TimerState where
  end_time : Int
  next_time : Int
  scan_period : Int
  start_time : Int
  deriving DecidableEq, Repr

/-- `ProcessTimer.__init__(start_time, end_time, scan_period)`. -/
def TimerState.init (start_time end_time scan_period : Int) : TimerState :=
  { end_time := end_time
    next_time := start_time
    scan_period := scan_period
    start_time := start_time }

/-- `ProcessTimer.elapsed_time`: `current_time - start_time`. -/
def TimerState.elapsed_time (t : TimerState) (now : Int) : Int :=
  now - t.start_time

/-- `ProcessTimer.lapse`: `current_time - next_time + scan_period`. -/
def TimerState.lapse (t : TimerState) (now : Int) : Int :=
  now - t.next_time + t.scan_period

/-- `ProcessTimer.rewind`: `self._next_time -= self._scan_period`. -/
def TimerState.rewind (t : TimerState) : TimerState :=
  { t with next_time := t.next_time - t.scan_period }

/-- `ProcessTimer.start`: `timing.wait_until(self._start_time)`. -/
def TimerState.start (t : TimerState) (now : Int) : Except String Int :=
  wait_until t.start_time now

/-- `ProcessTimer.stop`: if `current_time >= end_time` return `True`
without touching any state and without waiting (recorded as a zero
wait); otherwise wait until `next_time`, advance `next_time` by
`scan_period`, and return `False`.  The result carries the returned
boolean, the timer state after the call, and the duration waited. -/
def TimerState.stop (t : TimerState) (now : Int) :
    Except String (Bool × TimerState × Int) :=
  if now ≥ t.end_time then
    .ok (true, t, 0)
  else
    match wait_until t.next_time now with
    | .error e => .error e
    | .ok waited =>
        .ok (false, { t with next_time := t.next_time + t.scan_period }, waited)

/-- The operations a client can invoke on a `ProcessTimer`. -/
inductive TimerOp where
  | opElapsedTime
  | opLapse
  | opRewind
  | opStart
  | opStop
  deriving DecidableEq, Repr

/-- The timer state after one operation.  `elapsed_time`, `lapse` and
`start` read the clock but assign no field; `rewind` and `stop` are the
definitions above (a failed `stop` would leave the state unchanged). -/
def applyTimerOp (op : TimerOp) (t : TimerState) (now : Int) : TimerState :=
  match op with
  | .opElapsedTime => t
  | .opLapse => t
  | .opRewind => t.rewind
  | .opStart => t
  | .opStop =>
      match t.stop now with
      | .ok (_, t', _) => t'
      | .error _ => t

/-! ## robot_basic.py — `RobotBasic.run`

One iteration of the `while not timer.stop():` loop.  The collaborator
calls `_get_inventory` and `_get_images` are abstracted by their
outcome: a returned set of image names, an `AuthorizationExpiredError`,
or any other error.  `KeyError` is the exception `set.remove` raises on
an element that is absent. -/

/-- Outcome of one collaborator call. -/
inductive CollabResult (α : Type) where
  | ok : α → CollabResult α
  | authExpired : CollabResult α
  | failed : CollabResult α
  deriving DecidableEq

/-- The two local sets of `RobotBasic.run` (`pendent` and `retry`). -/
structure RobotState where
  pendent : Finset String
  retry : Finset String
  deriving DecidableEq

/-- An exception that escapes the `try` block of `RobotBasic.run`
(everything except `AuthorizationExpiredError` propagates). -/
inductive RunError where
  | keyError
  | collaboratorError
  deriving DecidableEq

/-- Outcome of one loop iteration of `RobotBasic.run`: the cycle
completed (`ok`), an `AuthorizationExpiredError` was caught and the
`except` branch will run (`reauth`), or an exception propagated out of
`run` (`abort`). -/
inductive CycleResult where
  | ok : RobotState → CycleResult
  | reauth : RobotState → CycleResult
  | abort : RunError → CycleResult
  deriving DecidableEq

/-- The `for image_name in retry.copy():` loop of `RobotBasic.run`:
for each name of the copy, `retry.remove(image_name)` then
`pendent.remove(image_name)`; Python's `set.remove` raises `KeyError`
when the element is absent. -/
def reconcileLoop :
    List String → Finset String → Finset String →
      Except RunError (Finset String × Finset String)
  | [], retry, pendent => .ok (retry, pendent)
  | image_name :: rest, retry, pendent =>
      if image_name ∈ retry then
        if image_name ∈ pendent then
          reconcileLoop rest (retry.erase image_name) (pendent.erase image_name)
        else .error .keyError
      else .error .keyError

/-- One iteration of the `while not timer.stop():` loop of
`RobotBasic.run`.  `inv` is the outcome of
`_get_inventory(station_ids, API_KEY, access_token)`; `dl` gives the
outcome of `_get_images(pendent, API_KEY, access_token)` as a function
of the `pendent` argument.  The body is, in order:
`pendent = pendent.union(image_set)`; `downloaded = _get_images(...)`;
`pendent = pendent.difference(downloaded)`; the `for` loop over
`retry.copy()` (iterated here in sorted order — the proofs below show
the result is the same for every enumeration order);
`retry = retry.union(pendent)`.  An `AuthorizationExpiredError` raised
by either collaborator call is caught with the sets as they are at that
point; any other exception aborts the run. -/
def runCycle (inv : CollabResult (Finset String))
    (dl : Finset String → CollabResult (Finset String))
    (s : RobotState) : CycleResult :=
  match inv with
  | .authExpired => .reauth s
  | .failed => .abort .collaboratorError
  | .ok image_set =>
      let pendent1 := s.pendent ∪ image_set
      match dl pendent1 with
      | .authExpired => .reauth { pendent := pendent1, retry := s.retry }
      | .failed => .abort .collaboratorError
      | .ok downloaded =>
          let pendent2 := pendent1 \ downloaded
          match reconcileLoop (s.retry.sort (· ≤ ·)) s.retry pendent2 with
          | .error e => .abort e
          | .ok (retry3, pendent3) =>
              .ok { pendent := pendent3, retry := retry3 ∪ pendent3 }

/-- The `except AuthorizationExpiredError` branch of `RobotBasic.run`:
log a warning, `access_token = _get_access_token(API_KEY, True)`,
`timer.rewind()`. -/
structure ReauthStep where
  warned : Bool
  token : String
  timer : TimerState

/-- `handleAuthExpired getAccessToken t` is the `except` branch run
with credential provider `getAccessToken` and timer state `t`. -/
def handleAuthExpired (getAccessToken : Bool → String) (t : TimerState) :
    ReauthStep :=
  { warned := true, token := getAccessToken true, timer := t.rewind }

/-- The states `(pendent, retry)` the loop head of `RobotBasic.run` can
reach: both sets start empty, and each iteration either completes or is
interrupted by a caught `AuthorizationExpiredError` (an aborted
iteration exits `run`, so it reaches no further loop head). -/
inductive Reachable : RobotState → Prop where
  | init : Reachable ⟨∅, ∅⟩
  | step_ok {s s' : RobotState} (inv : CollabResult (Finset String))
      (dl : Finset String → CollabResult (Finset String)) :
      Reachable s → runCycle inv dl s = .ok s' → Reachable s'
  | step_reauth {s s' : RobotState} (inv : CollabResult (Finset String))
      (dl : Finset String → CollabResult (Finset String)) :
      Reachable s → runCycle inv dl s = .reauth s' → Reachable s'

/-! ## robot_smn.py — `RobotSMN._get_images` and `RobotSMN._save_image`

The HTTP handler call `requests.download_image(image_name)` is
abstracted by its outcome per image name; the local repository is the
set of file names present on disk.  -/

/-- Outcome of `requests.download_image(image_name)`: a byte stream, a
`RequestError` with status 401, or a `RequestError` with another
status. -/
inductive DownloadOutcome where
  | ok
  | http401
  | httpOther
  deriving DecidableEq

/-- An exception escaping `RobotSMN._get_images`. -/
inductive SmnError where
  | authorizationExpired
  | requestError
  deriving DecidableEq

/-- `RobotSMN._save_image`: write the image into the repository; an
`IOError`/`OSError`/`TypeError` during the write is caught, an error
message is printed, and the method returns normally leaving the file
absent.  `persistOk` is whether the underlying open-and-write
succeeds; the result is the repository contents after the call. -/
def save_image (store : Finset String) (image_name : String)
    (persistOk : Bool) : Except SmnError (Finset String) :=
  if persistOk then .ok (insert image_name store) else .ok store

/-- The `for image_name in image_set:` loop of `RobotSMN._get_images`:
download the image (`RequestError` with status 401 becomes
`AuthorizationExpiredError`, any other `RequestError` propagates),
remove the name from `pendent_set`, then `_save_image`. -/
def get_images_loop (dl : String → DownloadOutcome)
    (persist : String → Bool) :
    List String → Finset String → Finset String →
      Except SmnError (Finset String × Finset String)
  | [], pendent_set, store => .ok (pendent_set, store)
  | image_name :: rest, pendent_set, store =>
      match dl image_name with
      | .ok =>
          let pendent' := pendent_set.erase image_name
          match save_image store image_name (persist image_name) with
          | .ok store' => get_images_loop dl persist rest pendent' store'
          | .error e => .error e
      | .http401 => .error .authorizationExpired
      | .httpOther => .error .requestError

/-- `RobotSMN._get_images`: `pendent_set = image_set.copy()`, run the
download loop over `image_set` (iterated here in sorted order), and
return `image_set - pendent_set`, the set of downloaded names.  The
result also carries the repository contents after the call. -/
def get_images (dl : String → DownloadOutcome) (persist : String → Bool)
    (image_set : Finset String) (store : Finset String) :
    Except SmnError (Finset String × Finset String) :=
  match get_images_loop dl persist (image_set.sort (· ≤ ·)) image_set store with
  | .ok (pendent_set, store') => .ok (image_set \ pendent_set, store')
  | .error e => .error e

/-! ## Helper lemmas -/

/-- `calculate_wait_time` is clamped to be non-negative. -/
lemma calculate_wait_time_nonneg (until_t now : Int) :
    0 ≤ calculate_wait_time until_t now := by
  have h : calculate_wait_time until_t now =
      if until_t - now < 0 then 0 else until_t - now := rfl
  rw [h]
  split <;> omega

/-- `wait_until` never raises: the clamped duration passes the
negativity check of `wait_for_n_seconds`. -/
lemma wait_until_ok (until_t now : Int) :
    wait_until until_t now = .ok (calculate_wait_time until_t now) := by
  unfold wait_until wait_for_n_seconds
  rw [if_neg (not_lt.mpr (calculate_wait_time_nonneg until_t now))]

/-- The `for` loop over a duplicate-free enumeration of `retry`
succeeds exactly when `retry ⊆ pendent`, in which case it empties
`retry` and removes the retried names from `pendent`; otherwise some
`pendent.remove` raises `KeyError`.  The result does not depend on the
enumeration order. -/
lemma reconcileLoop_eq (l : List String) (retry pendent : Finset String)
    (hn : l.Nodup) (hmem : ∀ x, x ∈ l ↔ x ∈ retry) :
    reconcileLoop l retry pendent =
      if retry ⊆ pendent then .ok (∅, pendent \ retry) else .error .keyError := by
  induction l generalizing retry pendent with
  | nil =>
      have hr : retry = ∅ := by
        ext x
        simp [← hmem x]
      subst hr
      simp [reconcileLoop]
  | cons a l ih =>
      have ha : a ∈ retry := (hmem a).1 (by simp)
      have hnc := List.nodup_cons.mp hn
      have hmem' : ∀ x, x ∈ l ↔ x ∈ retry.erase a := by
        intro x
        constructor
        · intro hx
          refine Finset.mem_erase.mpr ⟨?_, (hmem x).1 (by simp [hx])⟩
          rintro rfl
          exact hnc.1 hx
        · intro hx
          rcases Finset.mem_erase.mp hx with ⟨hne, hxr⟩
          rcases List.mem_cons.mp ((hmem x).2 hxr) with h | h
          · exact absurd h hne
          · exact h
      rw [reconcileLoop, if_pos ha]
      by_cases hp : a ∈ pendent
      · rw [if_pos hp]
        have hsub : (retry.erase a ⊆ pendent.erase a) ↔ (retry ⊆ pendent) := by
          constructor
          · intro h x hx
            by_cases hxa : x = a
            · subst hxa
              exact hp
            · exact Finset.mem_of_mem_erase (h (Finset.mem_erase.mpr ⟨hxa, hx⟩))
          · intro h x hx
            rcases Finset.mem_erase.mp hx with ⟨hne, hxr⟩
            exact Finset.mem_erase.mpr ⟨hne, h hxr⟩
        have hsd : pendent.erase a \ retry.erase a = pendent \ retry := by
          ext x
          by_cases hxa : x = a
          · subst hxa
            simp [ha, hp]
          · simp [Finset.mem_sdiff, Finset.mem_erase, hxa]
        rw [ih _ _ hnc.2 hmem', hsd]
        by_cases hrp : retry ⊆ pendent
        · rw [if_pos (hsub.mpr hrp), if_pos hrp]
        · rw [if_neg (fun h => hrp (hsub.mp h)), if_neg hrp]
      · rw [if_neg hp, if_neg (fun h => hp (h ha))]

/-- A completed download step determines the whole cycle: the cycle
completes iff every retried name is still pendent after the downloads
are removed, and then both sets become the undownloaded non-retried
names; otherwise the loop raises `KeyError` and the run aborts. -/
lemma runCycle_dl_ok (image_set downloaded : Finset String)
    (dl : Finset String → CollabResult (Finset String)) (s : RobotState)
    (hdl : dl (s.pendent ∪ image_set) = .ok downloaded) :
    runCycle (.ok image_set) dl s =
      if s.retry ⊆ (s.pendent ∪ image_set) \ downloaded
      then .ok ⟨((s.pendent ∪ image_set) \ downloaded) \ s.retry,
                ((s.pendent ∪ image_set) \ downloaded) \ s.retry⟩
      else .abort .keyError := by
  have hmem : ∀ x, x ∈ Finset.sort (· ≤ ·) s.retry ↔ x ∈ s.retry :=
    fun x => Finset.mem_sort _
  have hn : (Finset.sort (· ≤ ·) s.retry).Nodup := Finset.sort_nodup _ _
  simp only [runCycle, hdl]
  rw [reconcileLoop_eq _ _ _ hn hmem]
  by_cases h : s.retry ⊆ (s.pendent ∪ image_set) \ downloaded
  · simp [h]
  · simp [h]

/-- Inversion of a completed cycle. -/
lemma runCycle_ok_inv (inv : CollabResult (Finset String))
    (dl : Finset String → CollabResult (Finset String)) (s s' : RobotState)
    (h : runCycle inv dl s = .ok s') :
    ∃ image_set downloaded,
      inv = .ok image_set ∧
      dl (s.pendent ∪ image_set) = .ok downloaded ∧
      s.retry ⊆ (s.pendent ∪ image_set) \ downloaded ∧
      s' = ⟨((s.pendent ∪ image_set) \ downloaded) \ s.retry,
            ((s.pendent ∪ image_set) \ downloaded) \ s.retry⟩ := by
  cases inv with
  | authExpired => simp [runCycle] at h
  | failed => simp [runCycle] at h
  | ok image_set =>
      cases hdl : dl (s.pendent ∪ image_set) with
      | authExpired => simp [runCycle, hdl] at h
      | failed => simp [runCycle, hdl] at h
      | ok downloaded =>
          rw [runCycle_dl_ok _ _ _ _ hdl] at h
          by_cases hsub : s.retry ⊆ (s.pendent ∪ image_set) \ downloaded
          · rw [if_pos hsub] at h
            exact ⟨image_set, downloaded, rfl, hdl, hsub,
              ((CycleResult.ok.injEq _ _).mp h).symm⟩
          · rw [if_neg hsub] at h
            exact absurd h (by simp)

/-- Inversion of a cycle interrupted by `AuthorizationExpiredError`:
`retry` is unchanged, and `pendent` is unchanged when the inventory
call raised, but already holds the union with the cycle's inventory
when the download call raised. -/
lemma runCycle_reauth_inv (inv : CollabResult (Finset String))
    (dl : Finset String → CollabResult (Finset String)) (s s' : RobotState)
    (h : runCycle inv dl s = .reauth s') :
    s'.retry = s.retry ∧
    (inv = .authExpired ∧ s' = s ∨
      ∃ image_set, inv = .ok image_set ∧
        dl (s.pendent ∪ image_set) = .authExpired ∧
        s' = ⟨s.pendent ∪ image_set, s.retry⟩) := by
  cases inv with
  | authExpired =>
      simp only [runCycle] at h
      cases h
      exact ⟨rfl, .inl ⟨rfl, rfl⟩⟩
  | failed => simp [runCycle] at h
  | ok image_set =>
      cases hdl : dl (s.pendent ∪ image_set) with
      | authExpired =>
          simp only [runCycle, hdl] at h
          cases h
          exact ⟨rfl, .inr ⟨image_set, rfl, hdl, rfl⟩⟩
      | failed => simp [runCycle, hdl] at h
      | ok downloaded =>
          rw [runCycle_dl_ok _ _ _ _ hdl] at h
          by_cases hsub : s.retry ⊆ (s.pendent ∪ image_set) \ downloaded
          · rw [if_pos hsub] at h
            exact absurd h (by simp)
          · rw [if_neg hsub] at h
            exact absurd h (by simp)

/-- `RetrySet ⊆ PendingSet` at every reachable loop head. -/
lemma reachable_retry_subset (s : RobotState) (h : Reachable s) :
    s.retry ⊆ s.pendent := by
  induction h with
  | init => simp
  | step_ok inv dl hreach hstep ih =>
      rcases runCycle_ok_inv _ _ _ _ hstep with ⟨i, d, _, _, _, rfl⟩
      simp
  | step_reauth inv dl hreach hstep ih =>
      rcases runCycle_reauth_inv _ _ _ _ hstep with ⟨hret, hcase⟩
      rcases hcase with ⟨_, rfl⟩ | ⟨i, _, _, rfl⟩
      · exact ih
      · exact ih.trans Finset.subset_union_left

/-- After a completed cycle's reconciliation the two sets coincide. -/
lemma runCycle_ok_retry_eq_pendent (inv : CollabResult (Finset String))
    (dl : Finset String → CollabResult (Finset String)) (s s' : RobotState)
    (h : runCycle inv dl s = .ok s') : s'.retry = s'.pendent := by
  rcases runCycle_ok_inv _ _ _ _ h with ⟨i, d, _, _, _, rfl⟩
  rfl

/-! ## Claim theorems -/

/-- **C4.** For any window with `start < end`, a call to `stop()`
returns `true` iff the wall-clock time at the call is `≥ end`; on a
`true` return it does not block (zero wait, state untouched), and on a
`false` return it performs exactly one wait, until `next_time`, then
advances `next_time` by exactly one period before returning. -/
theorem c4_stop_contract (t : TimerState) (now : Int)
    (hwin : t.start_time < t.end_time) :
    (∀ b t' w, t.stop now = .ok (b, t', w) → (b = true ↔ now ≥ t.end_time)) ∧
    (now ≥ t.end_time → t.stop now = .ok (true, t, 0)) ∧
    (now < t.end_time →
      t.stop now = .ok (false,
        { t with next_time := t.next_time + t.scan_period },
        calculate_wait_time t.next_time now)) := by
  by_cases hend : now ≥ t.end_time
  · refine ⟨?_, fun _ => by simp [TimerState.stop, hend],
      fun hlt => absurd hend (not_le.mpr hlt)⟩
    intro b t' w hb
    simp only [TimerState.stop, if_pos hend] at hb
    cases hb
    simp [hend]
  · refine ⟨?_, fun hge => absurd hge hend, fun _ => ?_⟩
    · intro b t' w hb
      simp only [TimerState.stop, if_neg hend, wait_until_ok] at hb
      cases hb
      simp [hend]
    · simp only [TimerState.stop, if_neg hend, wait_until_ok]

/-- **C4 witness.** At `start = 0`, `end = 10`, `period = 2`, a call at
time `11` is terminal and leaves the timer untouched. -/
theorem c4_stop_contract_witness :
    (TimerState.init 0 10 2).stop 11 = .ok (true, TimerState.init 0 10 2, 0) :=
  (c4_stop_contract (TimerState.init 0 10 2) 11 (by decide)).2.1 (by decide)

/-- **C8.** `next_time` only ever changes forward by exactly one period
(non-terminal `stop()`) or backward by exactly one period (`rewind()`);
every other operation leaves it unchanged, so no operation moves it
backward by more than one period. -/
theorem c8_next_time_transitions (op : TimerOp) (t : TimerState) (now : Int) :
    (applyTimerOp op t now).next_time = t.next_time ∨
    (op = .opStop ∧ now < t.end_time ∧
      (applyTimerOp op t now).next_time = t.next_time + t.scan_period) ∨
    (op = .opRewind ∧
      (applyTimerOp op t now).next_time = t.next_time - t.scan_period) := by
  cases op with
  | opElapsedTime => exact .inl rfl
  | opLapse => exact .inl rfl
  | opStart => exact .inl rfl
  | opRewind => exact .inr (.inr ⟨rfl, rfl⟩)
  | opStop =>
      by_cases hend : now ≥ t.end_time
      · left
        simp [applyTimerOp, TimerState.stop, hend]
      · right
        left
        refine ⟨rfl, not_le.mp hend, ?_⟩
        simp [applyTimerOp, TimerState.stop, hend, wait_until_ok]

/-- **C9.** The computed sleep durations are clamped to `≥ 0`, so the
negative-duration guard of `wait_for_n_seconds` never fires and neither
`start()` nor `stop()` ever raises. -/
theorem c9_no_negative_sleep (t : TimerState) (now : Int) :
    0 ≤ calculate_wait_time t.next_time now ∧
    0 ≤ calculate_wait_time t.start_time now ∧
    (∃ waited, t.start now = .ok waited) ∧
    (∃ r, t.stop now = .ok r) := by
  refine ⟨calculate_wait_time_nonneg _ _, calculate_wait_time_nonneg _ _,
    ⟨calculate_wait_time t.start_time now, wait_until_ok _ _⟩, ?_⟩
  by_cases hend : now ≥ t.end_time
  · exact ⟨(true, t, 0), by simp [TimerState.stop, hend]⟩
  · exact ⟨(false, { t with next_time := t.next_time + t.scan_period },
      calculate_wait_time t.next_time now),
      by simp only [TimerState.stop, if_neg hend, wait_until_ok]⟩

/-- **C10.** A terminal `stop()` (wall-clock `≥ end`) returns `true`
and leaves the timer state unchanged — `next_time` in particular — so
every later call at or after `end` also returns `true`: the terminal
state is absorbing. -/
theorem c10_terminal_stop_absorbing (t : TimerState) (now now' : Int)
    (h : now ≥ t.end_time) (h' : now' ≥ t.end_time) :
    t.stop now = .ok (true, t, 0) ∧
    (∀ b t1 w, t.stop now = .ok (b, t1, w) →
      t1.stop now' = .ok (true, t1, 0)) := by
  have hstop : t.stop now = .ok (true, t, 0) := by simp [TimerState.stop, h]
  refine ⟨hstop, ?_⟩
  intro b t1 w hb
  rw [hstop] at hb
  cases hb
  simp [TimerState.stop, h']

/-- **C10 witness.** At `end = 10`, calls at times `11` and then `12`
both return `true` with the state untouched. -/
theorem c10_terminal_stop_absorbing_witness :
    (TimerState.init 0 10 2).stop 11 =
      .ok (true, TimerState.init 0 10 2, 0) :=
  (c10_terminal_stop_absorbing (TimerState.init 0 10 2) 11 12
    (by decide) (by decide)).1

/-- **C1.** The claim says retry reconciliation removes every retried
id from both sets "regardless of whether the id is still pending" and
completes without error even when a retried id was downloaded earlier
in the same cycle.  The code instead calls `pendent.remove(image_name)`,
which raises `KeyError` precisely when the retried id was successfully
downloaded (and hence already removed from `pendent`): from the
reachable loop-head state `pendent = retry = {"a"}`, a cycle whose
download step succeeds for `"a"` aborts the whole run with `KeyError`.
-/
theorem c1_reconciliation_raises_keyerror :
    Reachable ⟨{"a"}, {"a"}⟩ ∧
    runCycle (.ok ∅) (fun pendent => .ok pendent) ⟨{"a"}, {"a"}⟩ =
      .abort .keyError := by
  constructor
  · exact Reachable.step_ok (.ok {"a"}) (fun _ => .ok ∅) Reachable.init
      (by simp [runCycle, reconcileLoop])
  · simp [runCycle, reconcileLoop, Finset.sort_singleton]

/-- **C2 counterexample.** The claim says an interrupted cycle leaves
both sets exactly as they were at its start.  Starting from
`pendent = retry = ∅`, a cycle whose inventory call returns `{"b"}` and
whose download call then signals authorization expiry resumes the loop
with `pendent = {"b"} ≠ ∅`: `PendingSet` was mutated in the interrupted
cycle. -/
theorem c2_set_mutation_counterexample :
    runCycle (.ok {"b"}) (fun _ => .authExpired) ⟨∅, ∅⟩ =
      .reauth ⟨{"b"}, ∅⟩ ∧
    ({"b"} : Finset String) ≠ (∅ : Finset String) := by
  constructor
  · simp [runCycle]
  · decide

/-- **C2 amended.** On authorization expiry the orchestrator logs a
warning, renews the token via the credential provider, rewinds the gate
by one period, and resumes without running retry reconciliation;
`RetrySet` is unchanged, and `PendingSet` is unchanged when the expiry
came from the inventory call, but already contains the union with the
interrupted cycle's inventory result when it came from the download
call. -/
theorem c2_reauth_amended (inv : CollabResult (Finset String))
    (dl : Finset String → CollabResult (Finset String)) (s s' : RobotState)
    (getAccessToken : Bool → String) (t : TimerState)
    (h : runCycle inv dl s = .reauth s') :
    s'.retry = s.retry ∧
    (inv = .authExpired ∧ s' = s ∨
      ∃ image_set, inv = .ok image_set ∧
        dl (s.pendent ∪ image_set) = .authExpired ∧
        s'.pendent = s.pendent ∪ image_set) ∧
    (handleAuthExpired getAccessToken t).warned = true ∧
    (handleAuthExpired getAccessToken t).token = getAccessToken true ∧
    (handleAuthExpired getAccessToken t).timer.next_time =
      t.next_time - t.scan_period := by
  rcases runCycle_reauth_inv _ _ _ _ h with ⟨hret, hcase⟩
  refine ⟨hret, ?_, rfl, rfl, rfl⟩
  rcases hcase with ⟨hi, rfl⟩ | ⟨i, hi, hdl, rfl⟩
  · exact .inl ⟨hi, rfl⟩
  · exact .inr ⟨i, hi, hdl, rfl⟩

/-- **C2 witness.** The amended statement applied to the interrupted
cycle of the counterexample. -/
theorem c2_reauth_amended_witness :
    (RobotState.mk {"b"} ∅).retry = (RobotState.mk ∅ ∅).retry :=
  (c2_reauth_amended (.ok {"b"}) (fun _ => .authExpired) ⟨∅, ∅⟩ ⟨{"b"}, ∅⟩
    (fun _ => "renewed") (TimerState.init 0 10 2)
    (by simp [runCycle])).1

/-- **C3.** An id that is listed by the inventory, was in neither set
beforehand, and stays undownloaded across two consecutive completed
non-exceptional cycles is absent from both `PendingSet` and `RetrySet`
at the start of the third cycle. -/
theorem c3_two_cycle_budget (s s1 s2 : RobotState)
    (inv1 inv2 d1 d2 : Finset String)
    (dl1 dl2 : Finset String → CollabResult (Finset String)) (id : String)
    (hfp : id ∉ s.pendent) (hfr : id ∉ s.retry) (hlisted : id ∈ inv1)
    (hdl1 : dl1 (s.pendent ∪ inv1) = .ok d1) (hnd1 : id ∉ d1)
    (h1 : runCycle (.ok inv1) dl1 s = .ok s1)
    (hdl2 : dl2 (s1.pendent ∪ inv2) = .ok d2) (hnd2 : id ∉ d2)
    (h2 : runCycle (.ok inv2) dl2 s1 = .ok s2) :
    id ∉ s2.pendent ∧ id ∉ s2.retry := by
  rcases runCycle_ok_inv _ _ _ _ h1 with ⟨i1, dd1, hi1, hdd1, hsub1, rfl⟩
  cases hi1
  rw [hdl1] at hdd1
  cases hdd1
  rcases runCycle_ok_inv _ _ _ _ h2 with ⟨i2, dd2, hi2, hdd2, hsub2, rfl⟩
  cases hi2
  rw [hdl2] at hdd2
  cases hdd2
  have hid1 : id ∈ ((s.pendent ∪ inv1) \ d1) \ s.retry := by
    simp [Finset.mem_sdiff, hnd1, hfr, hlisted]
  constructor
  · intro hmem2
    exact (Finset.mem_sdiff.mp hmem2).2 hid1
  · intro hmem2
    exact (Finset.mem_sdiff.mp hmem2).2 hid1

/-- **C3 witness.** The id `"a"`, listed in cycle 1 and downloaded in
neither of two completed cycles, is gone from both sets afterwards. -/
theorem c3_two_cycle_budget_witness :
    "a" ∉ (RobotState.mk ∅ ∅).pendent ∧ "a" ∉ (RobotState.mk ∅ ∅).retry :=
  c3_two_cycle_budget ⟨∅, ∅⟩ ⟨{"a"}, {"a"}⟩ ⟨∅, ∅⟩ {"a"} ∅ ∅ ∅
    (fun _ => .ok ∅) (fun _ => .ok ∅) "a"
    (by decide) (by decide) (by decide)
    rfl (by decide) (by simp [runCycle, reconcileLoop])
    rfl (by decide) (by simp [runCycle, reconcileLoop, Finset.sort_singleton])

/-- **C7.** `RetrySet ⊆ PendingSet` at the start of every
non-exceptional cycle (every reachable loop head) and again immediately
after each completed cycle's retry reconciliation. -/
theorem c7_retry_subset_invariant (s : RobotState) (h : Reachable s) :
    s.retry ⊆ s.pendent ∧
    (∀ inv dl s', runCycle inv dl s = .ok s' → s'.retry ⊆ s'.pendent) := by
  refine ⟨reachable_retry_subset s h, ?_⟩
  intro inv dl s' hok
  rw [runCycle_ok_retry_eq_pendent inv dl s s' hok]

/-- **C7 witness.** The invariant at the initial loop head. -/
theorem c7_retry_subset_invariant_witness :
    (RobotState.mk ∅ ∅).retry ⊆ (RobotState.mk ∅ ∅).pendent :=
  (c7_retry_subset_invariant ⟨∅, ∅⟩ Reachable.init).1

/-- **C5.** The claim says an id leaves `PendingSet` only once its
persisted copy is confirmed present.  In the code, `_get_images`
removes the id from its pendent copy as soon as the download stream is
obtained and *before* `_save_image` runs, and `_save_image` catches a
failed write; so with a download that succeeds and a persist that
fails, `_get_images` reports `"a"` downloaded while the repository
still lacks `"a"`, and the orchestrator then drops `"a"` from
`PendingSet`. -/
theorem c5_removed_without_persisted_copy :
    get_images (fun _ => .ok) (fun _ => false) {"a"} ∅ = .ok ({"a"}, ∅) ∧
    "a" ∉ (∅ : Finset String) ∧
    runCycle (.ok {"a"}) (fun _ => .ok {"a"}) ⟨∅, ∅⟩ = .ok ⟨∅, ∅⟩ := by
  refine ⟨?_, by decide, ?_⟩
  · simp [get_images, get_images_loop, save_image, Finset.sort_singleton]
  · simp [runCycle, reconcileLoop]

/-- **C6.** The claim says every collaborator error other than
authorization expiry — explicitly including errors while persisting an
artifact — propagates out of `run()`.  `_save_image` instead catches
`IOError`/`OSError`/`TypeError`, prints a message and returns normally:
a failed persist never raises and leaves the repository unchanged. -/
theorem c6_persist_error_swallowed :
    ∀ (store : Finset String) (image_name : String),
      save_image store image_name false = .ok store ∧
      ∀ persistOk : Bool, ∃ store',
        save_image store image_name persistOk = .ok store' := by
  intro store image_name
  refine ⟨by simp [save_image], ?_⟩
  intro persistOk
  cases persistOk
  · exact ⟨store, by simp [save_image]⟩
  · exact ⟨insert image_name store, by simp [save_image]⟩
